import Mathlib

/-!
Verification of the exec lifecycle core of the hcsshim containerd shim
(`cmd/containerd-shim-runhcs-v1/diag.go`, `internal/hcs/watcher.go`).

The Go code is shallowly embedded: the mutable fields of `hcsExec` that are
guarded by the state mutex `sl`, its one-shot latches (`processDone`,
`exited`) and the I/O relay flags become a Lean structure; each operation
(`Start`, `Kill`, `ForceExit`, `Wait`, `CloseIO`, `exitFromCreatedL`,
`waitForExit`, the container-exit observer) becomes a function from that

structure (plus an environment of platform-call outcomes) to the updated
structure.  Every critical section that the Go code executes under `sl` is
one Lean function, so a step relation over these functions models the
serialized interleavings the mutex permits.

Side effects that the claims talk about (event publication, the launch of
the per-exec exit observer, channel closes performed under a sync.Once,
`io.Close`, platform `Kill`/`Signal` calls) are recorded in an append-only
ghost `trace` so that ordering and exactly-once properties are statable.
Machine integers: Go `uint32(x)` on an `int` is modelled as `x mod 2^32`
on `Int` with a nonnegative result.
-/

/-- States of `shimExecState` (Created / Running / Exited). -/
inductive ShimExecState
  | created
  | running
  | exited
deriving DecidableEq, Repr

/-- The containerd status values Status() maps the state to. -/
inductive ContainerdStatus
  | statusCreated
  | statusRunning
  | statusStopped
deriving DecidableEq, Repr

/-- Events published through the `events publisher` callback, with the
payload fields the Go code fills in. -/
inductive TaskEvent
  | taskStart (containerID : String) (pid : Nat)
  | taskExecStarted (containerID : String) (execID : String) (pid : Nat)
  | taskExit (containerID : String) (execID : String) (pid : Nat)
      (exitStatus : Nat) (exitedAt : Nat)
deriving DecidableEq, Repr

/-- Ghost trace actions: the externally observable side effects of the exec
state machine, in program order.  `closeProcessDone` / `closeExited` record
a `close(ch)` performed inside the corresponding `sync.Once`;
`launchWaitForExit` records the `go he.waitForExit()` statement;
`processKill` / `processSignal` record platform delivery calls;
`ioClose` records `he.io.Close()`. -/
inductive ExecAct
  | publish (e : TaskEvent)
  | launchWaitForExit
  | closeProcessDone
  | closeExited
  | ioClose
  | processKill
  | processSignal
deriving DecidableEq, Repr

/-- The exec object `hcsExec`: the read-only identity fields, the fields
guarded by the state mutex `sl`, the latch states, the I/O relay flags and
the ghost `trace`. -/
structure HcsExec where
  /-- task id of the hosting container (read only). -/
  tid : String
  /-- id of this process (read only); `id = tid` makes this the init exec. -/
  id : String
  /-- bundle path (read only). -/
  bundle : String
  /-- whether the process is part of a Windows OCI spec (read only). -/
  isWCOW : Bool
  /-- upstream stdin path, exposed read-only by the relay for Status(). -/
  stdinPath : String
  /-- upstream stdout path. -/
  stdoutPath : String
  /-- upstream stderr path. -/
  stderrPath : String
  /-- terminal flag of the relay. -/
  terminal : Bool
  /-- `he.state`, guarded by `sl`. -/
  state : ShimExecState
  /-- `he.pid`, guarded by `sl`. -/
  pid : Nat
  /-- `he.exitStatus` (uint32), guarded by `sl`. -/
  exitStatus : Nat
  /-- `he.exitedAt`, guarded by `sl`; wall-clock modelled as `Nat`, 0 = zero time. -/
  exitedAt : Nat
  /-- whether `he.p` has been assigned (non-nil). -/
  pSet : Bool
  /-- whether the `processDone` channel has been closed. -/
  processDoneSignaled : Bool
  /-- whether the `exited` channel has been closed. -/
  exitedSignaled : Bool
  /-- whether the relay's upstream stdin has been closed (`io.CloseStdin`). -/
  ioStdinClosed : Bool
  /-- whether `io.Close()` has run. -/
  ioClosed : Bool
  /-- whether `go he.waitForExit()` has been issued. -/
  exitObserverLaunched : Bool
  /-- whether `waitForExit` has run (it must run at most once). -/
  observerRan : Bool
  /-- ghost: observable side effects in program order. -/
  trace : List ExecAct
deriving DecidableEq, Repr

/-- Go `uint32(i)` for `i : Int` (two's-complement wrap to `[0, 2^32)`). -/
def uint32ofInt (i : Int) : Nat :=
  (i % 4294967296).toNat

/-- `sync.Once.Do(func() { close(ch) })`: close the channel and record the
close in the trace only if it has not been closed before. -/
def onceClose (signaled : Bool) (a : ExecAct) (tr : List ExecAct) :
    Bool × List ExecAct :=
  if signaled then (signaled, tr) else (true, tr ++ [a])

/-- `newHcsExec`: the exec as constructed, before any operation runs.  The
constructor also launches the container-exit observer goroutine; that
observer is modelled by the `containerExitObserved` step below. -/
def newHcsExec (tid id bundle : String) (isWCOW : Bool)
    (stdinPath stdoutPath stderrPath : String) (terminal : Bool) : HcsExec :=
  { tid := tid
    id := id
    bundle := bundle
    isWCOW := isWCOW
    stdinPath := stdinPath
    stdoutPath := stdoutPath
    stderrPath := stderrPath
    terminal := terminal
    state := .created
    pid := 0
    exitStatus := 255
    exitedAt := 0
    pSet := false
    processDoneSignaled := false
    exitedSignaled := false
    ioStdinClosed := false
    ioClosed := false
    exitObserverLaunched := false
    observerRan := false
    trace := [] }

/-- The snapshot returned by `hcsExec.Status()`. -/
structure StateResponse where
  idField : String
  execID : String
  bundle : String
  pid : Nat
  status : ContainerdStatus
  stdin : String
  stdout : String
  stderr : String
  terminal : Bool
  exitStatus : Nat
  exitedAt : Nat
deriving DecidableEq, Repr

/-- `hcsExec.Status()`: snapshot of the guarded fields taken under `sl`. -/
def HcsExec.Status (he : HcsExec) : StateResponse :=
  { idField := he.tid
    execID := he.id
    bundle := he.bundle
    pid := he.pid
    status :=
      match he.state with
      | .created => .statusCreated
      | .running => .statusRunning
      | .exited => .statusStopped
    stdin := he.stdinPath
    stdout := he.stdoutPath
    stderr := he.stderrPath
    terminal := he.terminal
    exitStatus := he.exitStatus
    exitedAt := he.exitedAt }

/-- `hcsExec.exitFromCreatedL(status)`: transition to Exited from Created.
Caller holds `sl`.  If already Exited it does nothing; otherwise it closes
`processDone` under its Once, sets the exited fields, closes the relay and
closes `exited` under its Once.  No event is published. -/
def HcsExec.exitFromCreatedL (he : HcsExec) (status : Int) (now : Nat) :
    HcsExec :=
  if he.state ≠ .exited then
    let pd := onceClose he.processDoneSignaled .closeProcessDone he.trace
    let he1 := { he with processDoneSignaled := pd.1, trace := pd.2 }
    let he2 := { he1 with
      state := .exited
      exitStatus := uint32ofInt status
      exitedAt := now }
    let he3 := { he2 with ioClosed := true, trace := he2.trace ++ [ExecAct.ioClose] }
    let ex := onceClose he3.exitedSignaled .closeExited he3.trace
    { he3 with exitedSignaled := ex.1, trace := ex.2 }
  else he

/-- Outcomes of the platform calls `Start` makes, supplied as an
environment: whether `c.Start()` fails (consulted only for the init exec),
whether `cmd.Start()` fails, the pid the started process reports, and the
wall-clock used when a failure path runs `exitFromCreatedL`. -/
structure StartEnv where
  containerStartErr : Bool
  cmdStartErr : Bool
  pid : Nat
  now : Nat
deriving DecidableEq, Repr

/-- Errors returned by `hcsExec.Start`. -/
inductive StartError
  | invalidState
  | containerStartFailed
  | cmdStartFailed
deriving DecidableEq, Repr

/-- The start event `Start` publishes on success: `TaskExecStarted` when
`id ≠ tid`, `TaskStart` when this is the init exec. -/
def startEventFor (he : HcsExec) (pid : Nat) : TaskEvent :=
  if he.id ≠ he.tid then .taskExecStarted he.tid he.id pid
  else .taskStart he.tid pid

/-- `hcsExec.Start(ctx)`, the whole body under `sl`.  Returns InvalidState
when the state is not Created — note that this return happens before the
`exitFromCreatedL(1)` cleanup is deferred, so it mutates nothing.  On a
container or process start failure the deferred cleanup transitions
Created to Exited(1).  On success: assign `p`, record the pid, advance to
Running, publish the start event, and only then launch `waitForExit`.
The `c.Terminate`/`c.Close` calls of the init failure path are platform
calls outside the claims and are not traced. -/
def HcsExec.Start (he : HcsExec) (env : StartEnv) :
    HcsExec × Option StartError :=
  if he.state ≠ .created then (he, some .invalidState)
  else if he.id = he.tid ∧ env.containerStartErr = true then
    (he.exitFromCreatedL 1 env.now, some .containerStartFailed)
  else if env.cmdStartErr then
    (he.exitFromCreatedL 1 env.now, some .cmdStartFailed)
  else
    let he1 := { he with pSet := true, pid := env.pid, state := .running }
    let he2 := { he1 with
      trace := he1.trace ++ [ExecAct.publish (startEventFor he env.pid)] }
    ({ he2 with
        trace := he2.trace ++ [ExecAct.launchWaitForExit]
        exitObserverLaunched := true }, none)

/-- Outcomes of the calls `Kill` makes in the Running branch:
`signalsSupported` is the combined capability boolean
(build ≥ RS5 ∧ (host = nil ∨ host advertises signal support));
`validateOptPresent`/`validateErr` are the signal translator's results;
`delivered`/`deliverErr` the result of `Signal`/`Kill` on the process;
`now` the wall-clock for the Created branch. -/
structure KillEnv where
  signalsSupported : Bool
  validateOptPresent : Bool
  validateErr : Bool
  delivered : Bool
  deliverErr : Bool
  now : Nat
deriving DecidableEq, Repr

/-- Errors returned by `hcsExec.Kill`. -/
inductive KillError
  | failedPrecondition
  | deliverFailed
  | notFound
deriving DecidableEq, Repr

/-- `hcsExec.Kill(ctx, signal)`, the whole body under `sl`.  Created:
`exitFromCreatedL(1)` and success.  Running: validate the signal (error →
FailedPrecondition), deliver via `Signal` when supported with options,
else via `Kill`; a delivery error propagates; not delivered → NotFound.
Exited: NotFound, no mutation. -/
def HcsExec.Kill (he : HcsExec) (env : KillEnv) :
    HcsExec × Option KillError :=
  match he.state with
  | .created => (he.exitFromCreatedL 1 env.now, none)
  | .running =>
    if env.validateErr then (he, some .failedPrecondition)
    else
      let act :=
        if env.signalsSupported ∧ env.validateOptPresent = true then
          ExecAct.processSignal
        else ExecAct.processKill
      let he1 := { he with trace := he.trace ++ [act] }
      if env.deliverErr then (he1, some .deliverFailed)
      else if env.delivered then (he1, none)
      else (he1, some .notFound)
  | .exited => (he, some .notFound)

/-- `hcsExec.ForceExit(status)`, the whole body under `sl`.  Created:
`exitFromCreatedL(status)` — with the argument, not a fixed 1.  Running:
platform Kill of the process so `waitForExit` proceeds; no state change.
Exited: nothing. -/
def HcsExec.ForceExit (he : HcsExec) (status : Int) (now : Nat) : HcsExec :=
  if he.state ≠ .exited then
    match he.state with
    | .created => he.exitFromCreatedL status now
    | .running => { he with trace := he.trace ++ [ExecAct.processKill] }
    | .exited => he
  else he

/-- `hcsExec.CloseIO(ctx, stdin)`: ignores `stdin` and closes the relay's
upstream stdin connection, then returns nil.  Modelled from the spec:
the `upstreamIO` interface is not under src/; its `CloseStdin` is
specified idempotent ("If `he.io.Stdin()` is already closed this is safe
to call multiple times"), modelled as setting the `ioStdinClosed` flag. -/
def HcsExec.closeIOOp (he : HcsExec) (stdin : Bool) :
    HcsExec × Option Unit :=
  ({ he with ioStdinClosed := true }, none)

/-- `hcsExec.Wait(ctx)`: block on the `exited` latch, then return
`Status()`.  The latch still being open is modelled as `none` (the caller
is still blocked, or has abandoned the wait); the `ctxCancelled` argument
models `ctx`, which the body never consults.  The exec is returned
unchanged: `Wait` mutates nothing. -/
def HcsExec.Wait (he : HcsExec) (ctxCancelled : Bool) :
    Option StateResponse × HcsExec :=
  (if he.exitedSignaled then some he.Status else none, he)

/-- Outcomes of the platform calls `waitForExit` makes: whether
`p.Process.Wait()` errored, the exit code `p.Process.ExitCode()` returned
and whether it errored (both only logged), and the wall-clock at the
transition. -/
structure WaitForExitEnv where
  waitErr : Bool
  code : Int
  exitCodeErr : Bool
  now : Nat
deriving DecidableEq, Repr

/-- `hcsExec.waitForExit()`, run in its own goroutine after a successful
`Start`: wait for the process; close `processDone` under its Once; read
the exit code; under `sl` set state/exitStatus/exitedAt; wait for IO and
close the relay; publish `TaskExit` only when `tid ≠ id` (a true exec —
the init exec's exit event is the task's responsibility); close `exited`
under its Once. -/
def HcsExec.waitForExit (he : HcsExec) (env : WaitForExitEnv) : HcsExec :=
  let pd := onceClose he.processDoneSignaled .closeProcessDone he.trace
  let he1 := { he with processDoneSignaled := pd.1, trace := pd.2 }
  let he2 := { he1 with
    state := .exited
    exitStatus := uint32ofInt env.code
    exitedAt := env.now }
  let he3 := { he2 with ioClosed := true, trace := he2.trace ++ [ExecAct.ioClose] }
  let he4 :=
    if he3.tid ≠ he3.id then
      { he3 with trace := he3.trace ++
          [ExecAct.publish (.taskExit he3.tid he3.id he3.pid he3.exitStatus
              he3.exitedAt)] }
    else he3
  let ex := onceClose he4.exitedSignaled .closeExited he4.trace
  { he4 with exitedSignaled := ex.1, trace := ex.2, observerRan := true }

/-- The `cexit` branch of `hcsExec.waitForContainerExit()` (launched at
construction): when the container exits first, under `sl`: Created →
`exitFromCreatedL(1)`; Running → platform Kill of the process; Exited →
nothing.  The `processDone` branch does nothing. -/
def HcsExec.containerExitObserved (he : HcsExec) (now : Nat) : HcsExec :=
  match he.state with
  | .created => he.exitFromCreatedL 1 now
  | .running => { he with trace := he.trace ++ [ExecAct.processKill] }
  | .exited => he

/-- One serialized step of the exec: each constructor is one critical
section some worker or observer goroutine executes under the state mutex
(together with that goroutine's unguarded tail, which touches only data it
owns).  `waitForExitStep` may run only after a successful `Start` launched
the observer, and at most once. -/
inductive ExecStep : HcsExec → HcsExec → Prop
  | startStep (he : HcsExec) (env : StartEnv) :
      ExecStep he (he.Start env).1
  | killStep (he : HcsExec) (env : KillEnv) :
      ExecStep he (he.Kill env).1
  | forceExitStep (he : HcsExec) (status : Int) (now : Nat) :
      ExecStep he (he.ForceExit status now)
  | closeIOStep (he : HcsExec) (stdin : Bool) :
      ExecStep he (he.closeIOOp stdin).1
  | waitForExitStep (he : HcsExec) (env : WaitForExitEnv)
      (hl : he.exitObserverLaunched = true) (hr : he.observerRan = false) :
      ExecStep he (he.waitForExit env)
  | containerExitStep (he : HcsExec) (now : Nat) :
      ExecStep he (he.containerExitObserved now)

/-- States reachable from a freshly constructed exec through the serialized
steps. -/
inductive ExecReachable : HcsExec → Prop
  | init (tid id bundle : String) (isWCOW : Bool)
      (stdinPath stdoutPath stderrPath : String) (terminal : Bool) :
      ExecReachable
        (newHcsExec tid id bundle isWCOW stdinPath stdoutPath stderrPath
          terminal)
  | step {he he' : HcsExec} :
      ExecReachable he → ExecStep he he' → ExecReachable he'

/-- The events published along a trace, in order. -/
def pubs (tr : List ExecAct) : List TaskEvent :=
  tr.filterMap fun a =>
    match a with
    | .publish e => some e
    | _ => none

/-- Whether an action is the publication of a start event
(`TaskStart` or `TaskExecStarted`). -/
def isStartPub (a : ExecAct) : Bool :=
  match a with
  | .publish (.taskStart _ _) => true
  | .publish (.taskExecStarted _ _ _) => true
  | _ => false

/-- Whether an action is the publication of a `TaskExit` event. -/
def isExitPub (a : ExecAct) : Bool :=
  match a with
  | .publish (.taskExit _ _ _ _ _) => true
  | _ => false

/-- Whether a trace contains a start-event publication. -/
def containsStartPub (tr : List ExecAct) : Bool :=
  tr.any isStartPub

/-- `exitAfterStartAux seen tr`: scanning `tr` left to right with `seen`
recording whether a start event has already been published, every
`TaskExit` publication must come strictly after some start publication. -/
def exitAfterStartAux (seen : Bool) : List ExecAct → Bool
  | [] => true
  | a :: rest =>
    if isExitPub a then seen && exitAfterStartAux seen rest
    else exitAfterStartAux (seen || isStartPub a) rest

/-- The inductive invariant of the exec state machine:
1. while the exec has not entered Exited, `exitStatus` is still the
   sentinel 255 (it is written only at entry to Exited);
2. on the event stream, every `TaskExit` publication is strictly after a
   start publication;
3. the per-exec exit observer is launched only after a start event is on
   the stream. -/
def execInv (he : HcsExec) : Prop :=
  (he.state ≠ .exited → he.exitStatus = 255) ∧
  exitAfterStartAux false he.trace = true ∧
  (he.exitObserverLaunched = true → containsStartPub he.trace = true)

/-- Events of `syscallWatcher` runs (`internal/hcs/watcher.go`):
the caller invoking and returning from the wrapped call, and the log
lines the caller and the watcher goroutine write. -/
inductive WatchEv
  | callInvoked
  | callReturned
  | startedLog (name sid : Nat)
  | finishedLog (name sid : Nat)
  | timeoutWarn (name sid : Nat)
  | canceledLog (name sid : Nat)
deriving DecidableEq, Repr

/-- `genUUID`.  Modelled from the spec: the generator `uuid.New()` is an
external library; per "Correlation ids are unique per invocation" it is
modelled as drawing from an injective counter, returning the fresh id and
the advanced counter. -/
def genUUID (ctr : Nat) : Nat × Nat :=
  (ctr, ctr + 1)

/-- `watchFunc`: logs that watching started, then waits on `ctx.Done()`.
Discrete-time model: the wrapped call starts at 0 and returns at
`callDur`; the context carries deadline `deadline`; `cancel` is deferred
in `syscallWatcher` until after the call returns, so `ctx.Err()` is
DeadlineExceeded — the warning that names the watched function and the
correlation id — iff `deadline ≤ callDur`, and Canceled — the quieter
"syscall canceled" log — otherwise.  It never cancels nor aborts the
watched call: its only effects are these log lines. -/
def watchFunc (deadline callDur name sid : Nat) : List WatchEv :=
  [WatchEv.startedLog name sid] ++
    (if deadline ≤ callDur then [WatchEv.timeoutWarn name sid]
     else [WatchEv.canceledLog name sid])

/-- Result of one `syscallWatcher` invocation: the caller-side events in
order, the watcher goroutine's events in order, the correlation id used,
and the advanced id counter. -/
structure WatcherOutcome where
  callerEvents : List WatchEv
  watcherEvents : List WatchEv
  sid : Nat
  nextCtr : Nat
deriving DecidableEq, Repr

/-- `syscallWatcher(logContext, syscallLambda)`: generate a correlation
id, start a context with the configured deadline, launch `watchFunc` in a
goroutine, run the wrapped call synchronously on the caller, log that the
syscall finished, and (deferred) cancel the context. -/
def syscallWatcher (ctr deadline callDur name : Nat) : WatcherOutcome :=
  let g := genUUID ctr
  { callerEvents := [WatchEv.callInvoked, WatchEv.callReturned,
      WatchEv.finishedLog name g.1]
    watcherEvents := watchFunc deadline callDur name g.1
    sid := g.1
    nextCtr := g.2 }

/-- One call of `runtime.Stack(buf, true)`: fills the buffer with the
stack dump of all workers, truncating to the buffer length; returns the
number of bytes written.  The dump is abstracted to its size
`stackSize`. -/
def runtimeStack (stackSize bufLen : Nat) : Nat :=
  min stackSize bufLen

/-- The buffer-growth loop of `service.DiagStacks`: at the top of each
iteration the freshly made buffer has length = capacity = `c`; dump into
it, slice to the bytes written, stop when that is strictly below the
capacity, otherwise reallocate at twice the written length.  Returns the
length of the final dump. -/
def diagStacksLoop (stackSize : Nat) (c : Nat) (hc : 0 < c) : Nat :=
  if h : runtimeStack stackSize c < c then runtimeStack stackSize c
  else
    diagStacksLoop stackSize (2 * runtimeStack stackSize c)
      (by
        have h1 : runtimeStack stackSize c = c :=
          Nat.le_antisymm (Nat.min_le_right _ _) (Nat.not_lt.mp h)
        omega)
termination_by stackSize + 1 - c
decreasing_by
  have h1 : runtimeStack stackSize c = c :=
    Nat.le_antisymm (Nat.min_le_right _ _) (Nat.not_lt.mp h)
  have h2 : min stackSize c ≤ stackSize := Nat.min_le_left _ _
  simp only [runtimeStack] at *
  omega

/-- `service.DiagStacks`: grow the buffer until the dump fits strictly
below its capacity, then answer with the dump (abstracted to its byte
count) and a nil error. -/
def DiagStacks (stackSize : Nat) : Nat × Option Unit :=
  (diagStacksLoop stackSize 4096 (by omega), none)

/-- A fresh init exec (execId = taskId). -/
def execT1 : HcsExec :=
  newHcsExec "t1" "t1" "bundle" false "sin" "sout" "serr" false

/-- A fresh additional exec (execId distinct from taskId). -/
def execE1 : HcsExec :=
  newHcsExec "t1" "e1" "bundle" false "sin" "sout" "serr" false

/-- A successful start environment: both platform starts succeed. -/
def startEnvOk : StartEnv :=
  { containerStartErr := false, cmdStartErr := false, pid := 42, now := 7 }

/-- A start environment in which the process start fails. -/
def startEnvCmdFail : StartEnv :=
  { containerStartErr := false, cmdStartErr := true, pid := 0, now := 4 }

/-- The init exec after a successful Start: a reachable Running state. -/
def runningT1 : HcsExec :=
  (execT1.Start startEnvOk).1

/-- A process-exit observation: clean exit with code 0 at time 11. -/
def wenv0 : WaitForExitEnv :=
  { waitErr := false, code := 0, exitCodeErr := false, now := 11 }

/-- A Kill environment for the Running branch: validation succeeds, the
delivery reports not-delivered without error. -/
def kenv0 : KillEnv :=
  { signalsSupported := false
    validateOptPresent := false
    validateErr := false
    delivered := false
    deliverErr := false
    now := 3 }

theorem exitAfterStartAux_true : ∀ (tr : List ExecAct),
    exitAfterStartAux true tr = true := by
  intro tr
  induction tr with
  | nil => rfl
  | cons a rest ih =>
    simp [exitAfterStartAux, ih]

theorem exitAfterStartAux_append (s : Bool) (t u : List ExecAct) :
    exitAfterStartAux s (t ++ u) =
      (exitAfterStartAux s t &&
        exitAfterStartAux (s || containsStartPub t) u) := by
  induction t generalizing s with
  | nil => simp [exitAfterStartAux, containsStartPub]
  | cons a rest ih =>
    by_cases hx : isExitPub a = true
    · have hs : isStartPub a = false := by
        cases a with
        | publish e => cases e <;> simp_all [isExitPub, isStartPub]
        | _ => simp_all [isExitPub]
      cases s with
      | false =>
        simp [exitAfterStartAux, hx, hs]
      | true =>
        simp [exitAfterStartAux, hx, hs, ih, containsStartPub]
    · simp only [Bool.not_eq_true] at hx
      simp [exitAfterStartAux, hx, ih, containsStartPub, List.any_cons,
        Bool.or_assoc]

/-- A trace with no `TaskExit` publication satisfies the scan from any
accumulator. -/
theorem exitAfterStartAux_of_noExit (tr : List ExecAct)
    (h : tr.all (fun a => !isExitPub a) = true) (s : Bool) :
    exitAfterStartAux s tr = true := by
  induction tr generalizing s with
  | nil => rfl
  | cons a rest ih =>
    simp only [List.all_cons, Bool.and_eq_true, Bool.not_eq_true'] at h
    simp [exitAfterStartAux, h.1, ih h.2]

theorem containsStartPub_append (t u : List ExecAct) :
    containsStartPub (t ++ u) = (containsStartPub t || containsStartPub u) := by
  simp [containsStartPub, List.any_append]

/-- Full effect of `exitFromCreatedL` on a not-yet-exited exec: close
`processDone` (once), set the exited fields, close the relay, close
`exited` (once); nothing else changes and no event is published. -/
theorem exitFromCreatedL_char (he : HcsExec) (s : Int) (t : Nat)
    (h : he.state ≠ .exited) :
    he.exitFromCreatedL s t =
      { he with
        processDoneSignaled := true
        state := .exited
        exitStatus := uint32ofInt s
        exitedAt := t
        ioClosed := true
        exitedSignaled := true
        trace := he.trace ++
          ((if he.processDoneSignaled then [] else [ExecAct.closeProcessDone]) ++
            ([ExecAct.ioClose] ++
              (if he.exitedSignaled then [] else [ExecAct.closeExited]))) } := by
  simp only [HcsExec.exitFromCreatedL, onceClose, if_pos h]
  by_cases hpd : he.processDoneSignaled <;>
    by_cases hex : he.exitedSignaled <;>
      simp [hpd, hex, List.append_assoc]

/-- `exitFromCreatedL` on an already Exited exec changes nothing. -/
theorem exitFromCreatedL_exited (he : HcsExec) (s : Int) (t : Nat)
    (h : he.state = .exited) :
    he.exitFromCreatedL s t = he := by
  simp [HcsExec.exitFromCreatedL, h]

/-- Full effect of `waitForExit`: close `processDone` (once), set the
exited fields from the observed exit code, close the relay, publish
`TaskExit` exactly when this is not the init exec, close `exited`
(once). -/
theorem waitForExit_char (he : HcsExec) (env : WaitForExitEnv) :
    he.waitForExit env =
      { he with
        processDoneSignaled := true
        state := .exited
        exitStatus := uint32ofInt env.code
        exitedAt := env.now
        ioClosed := true
        exitedSignaled := true
        observerRan := true
        trace := he.trace ++
          ((if he.processDoneSignaled then [] else [ExecAct.closeProcessDone]) ++
            ([ExecAct.ioClose] ++
              ((if he.tid ≠ he.id then
                  [ExecAct.publish (.taskExit he.tid he.id he.pid
                    (uint32ofInt env.code) env.now)]
                else []) ++
               (if he.exitedSignaled then [] else [ExecAct.closeExited])))) } := by
  simp only [HcsExec.waitForExit, onceClose]
  by_cases hpd : he.processDoneSignaled <;>
    by_cases hex : he.exitedSignaled <;>
      by_cases hio : he.tid ≠ he.id <;>
        simp [hpd, hex, hio, List.append_assoc]

theorem inv_trace_extend (tr u : List ExecAct)
    (h1 : exitAfterStartAux false tr = true)
    (hu : u.all (fun a => !isExitPub a) = true) :
    exitAfterStartAux false (tr ++ u) = true := by
  rw [exitAfterStartAux_append]
  simp [h1, exitAfterStartAux_of_noExit u hu]

theorem containsStartPub_mono (tr u : List ExecAct)
    (h : containsStartPub tr = true) :
    containsStartPub (tr ++ u) = true := by
  simp [containsStartPub_append, h]

theorem exitFromCreatedL_suffix_noExit (he : HcsExec) :
    (((if he.processDoneSignaled then [] else [ExecAct.closeProcessDone]) ++
      ([ExecAct.ioClose] ++
        (if he.exitedSignaled then [] else [ExecAct.closeExited])))).all
        (fun a => !isExitPub a) = true := by
  by_cases h1 : he.processDoneSignaled <;>
    by_cases h2 : he.exitedSignaled <;> simp [h1, h2, isExitPub]

theorem isExitPub_startEventFor (he : HcsExec) (pid : Nat) :
    isExitPub (.publish (startEventFor he pid)) = false := by
  simp only [startEventFor]
  split <;> simp [isExitPub]

theorem isStartPub_startEventFor (he : HcsExec) (pid : Nat) :
    isStartPub (.publish (startEventFor he pid)) = true := by
  simp only [startEventFor]
  split <;> simp [isStartPub]

theorem execInv_exitFromCreatedL (he : HcsExec) (s : Int) (t : Nat)
    (ih : execInv he) : execInv (he.exitFromCreatedL s t) := by
  obtain ⟨ih1, ih2, ih3⟩ := ih
  by_cases h : he.state = .exited
  · rw [exitFromCreatedL_exited he s t h]
    exact ⟨ih1, ih2, ih3⟩
  · rw [exitFromCreatedL_char he s t h]
    refine ⟨by simp, ?_, ?_⟩
    · exact inv_trace_extend _ _ ih2 (exitFromCreatedL_suffix_noExit he)
    · intro hl
      exact containsStartPub_mono _ _ (ih3 hl)

theorem start_suffix_noExit (he : HcsExec) (pid : Nat) :
    ([ExecAct.publish (startEventFor he pid), ExecAct.launchWaitForExit]).all
      (fun a => !isExitPub a) = true := by
  by_cases h : he.id = he.tid <;> simp [startEventFor, h, isExitPub]

theorem execInv_step (he he' : HcsExec) (hs : ExecStep he he')
    (ih : execInv he) : execInv he' := by
  obtain ⟨ih1, ih2, ih3⟩ := ih
  cases hs with
  | startStep env =>
    by_cases h1 : he.state = ShimExecState.created
    case neg =>
      have hx : (he.Start env).1 = he := by
        simp [HcsExec.Start, h1]
      rw [hx]
      exact ⟨ih1, ih2, ih3⟩
    case pos =>
      have hne : ¬(he.state ≠ ShimExecState.created) := by simp [h1]
      by_cases h2 : he.id = he.tid ∧ env.containerStartErr = true
      · have hx : (he.Start env).1 = he.exitFromCreatedL 1 env.now := by
          simp [HcsExec.Start, hne, h2]
        rw [hx]
        exact execInv_exitFromCreatedL he 1 env.now ⟨ih1, ih2, ih3⟩
      · by_cases h3 : env.cmdStartErr = true
        · have hx : (he.Start env).1 = he.exitFromCreatedL 1 env.now := by
            simp [HcsExec.Start, hne, h2, h3]
          rw [hx]
          exact execInv_exitFromCreatedL he 1 env.now ⟨ih1, ih2, ih3⟩
        · have hx : (he.Start env).1 =
            { he with
              pSet := true
              pid := env.pid
              state := .running
              trace := he.trace ++
                [ExecAct.publish (startEventFor he env.pid),
                  ExecAct.launchWaitForExit]
              exitObserverLaunched := true } := by
            simp [HcsExec.Start, hne, h2, h3]
          rw [hx]
          refine ⟨fun _ => ih1 (by rw [h1]; decide), ?_, fun _ => ?_⟩
          · exact inv_trace_extend _ _ ih2 (start_suffix_noExit he env.pid)
          · simp [containsStartPub_append, containsStartPub,
              isStartPub_startEventFor]
  | killStep env =>
    cases hst : he.state with
    | created =>
      have hx : (he.Kill env).1 = he.exitFromCreatedL 1 env.now := by
        simp [HcsExec.Kill, hst]
      rw [hx]
      exact execInv_exitFromCreatedL he 1 env.now ⟨ih1, ih2, ih3⟩
    | running =>
      by_cases h1 : env.validateErr = true
      · have hx : (he.Kill env).1 = he := by
          simp [HcsExec.Kill, hst, h1]
        rw [hx]
        exact ⟨ih1, ih2, ih3⟩
      · have hx : (he.Kill env).1 =
          { he with trace := he.trace ++
              [if env.signalsSupported ∧ env.validateOptPresent = true
                then ExecAct.processSignal else ExecAct.processKill] } := by
          simp only [HcsExec.Kill, hst]
          rw [if_neg h1]
          split_ifs <;> rfl
        rw [hx]
        refine ⟨fun _ => ih1 (by rw [hst]; decide), ?_, fun hl => ?_⟩
        · refine inv_trace_extend _ _ ih2 ?_
          split <;> decide
        · exact containsStartPub_mono _ _ (ih3 hl)
    | exited =>
      have hx : (he.Kill env).1 = he := by
        simp [HcsExec.Kill, hst]
      rw [hx]
      exact ⟨ih1, ih2, ih3⟩
  | forceExitStep status now =>
    cases hst : he.state with
    | created =>
      have hx : he.ForceExit status now = he.exitFromCreatedL status now := by
        simp [HcsExec.ForceExit, hst]
      rw [hx]
      exact execInv_exitFromCreatedL he status now ⟨ih1, ih2, ih3⟩
    | running =>
      have hx : he.ForceExit status now =
          { he with trace := he.trace ++ [ExecAct.processKill] } := by
        simp [HcsExec.ForceExit, hst]
      rw [hx]
      refine ⟨fun _ => ih1 (by rw [hst]; decide), ?_, fun hl => ?_⟩
      · exact inv_trace_extend _ _ ih2 (by decide)
      · exact containsStartPub_mono _ _ (ih3 hl)
    | exited =>
      have hx : he.ForceExit status now = he := by
        simp [HcsExec.ForceExit, hst]
      rw [hx]
      exact ⟨ih1, ih2, ih3⟩
  | closeIOStep stdin =>
    exact ⟨ih1, ih2, ih3⟩
  | waitForExitStep env hl hr =>
    rw [waitForExit_char he env]
    refine ⟨by simp, ?_, fun _ => ?_⟩
    · show exitAfterStartAux false (he.trace ++ _) = true
      rw [exitAfterStartAux_append]
      simp only [ih2, Bool.false_or, ih3 hl, Bool.true_and]
      exact exitAfterStartAux_true _
    · exact containsStartPub_mono _ _ (ih3 hl)
  | containerExitStep now =>
    cases hst : he.state with
    | created =>
      have hx : he.containerExitObserved now = he.exitFromCreatedL 1 now := by
        simp [HcsExec.containerExitObserved, hst]
      rw [hx]
      exact execInv_exitFromCreatedL he 1 now ⟨ih1, ih2, ih3⟩
    | running =>
      have hx : he.containerExitObserved now =
          { he with trace := he.trace ++ [ExecAct.processKill] } := by
        simp [HcsExec.containerExitObserved, hst]
      rw [hx]
      refine ⟨fun _ => ih1 (by rw [hst]; decide), ?_, fun hl => ?_⟩
      · exact inv_trace_extend _ _ ih2 (by decide)
      · exact containsStartPub_mono _ _ (ih3 hl)
    | exited =>
      have hx : he.containerExitObserved now = he := by
        simp [HcsExec.containerExitObserved, hst]
      rw [hx]
      exact ⟨ih1, ih2, ih3⟩

theorem execReachable_inv (he : HcsExec) (h : ExecReachable he) :
    execInv he := by
  induction h with
  | init tid id bundle isWCOW stdinPath stdoutPath stderrPath terminal =>
    exact ⟨fun _ => rfl, rfl, by simp [newHcsExec, containsStartPub]⟩
  | step hr hs ih =>
    exact execInv_step _ _ hs ih

theorem pubs_append (t u : List ExecAct) :
    pubs (t ++ u) = pubs t ++ pubs u := by
  simp [pubs, List.filterMap_append]

/-- The buffer-growth loop always ends up holding the complete dump: it
keeps doubling while the written length equals the capacity and stops as
soon as the written length is strictly below it, at which point the whole
`stackSize`-byte dump was written. -/
theorem diagStacksLoop_eq (stackSize : Nat) :
    ∀ (n c : Nat) (hc : 0 < c), stackSize + 1 - c ≤ n →
      diagStacksLoop stackSize c hc = stackSize := by
  intro n
  induction n with
  | zero =>
    intro c hc hle
    have hsc : stackSize < c := by omega
    have hlt : runtimeStack stackSize c < c :=
      lt_of_le_of_lt (Nat.min_le_left _ _) hsc
    rw [diagStacksLoop, dif_pos hlt]
    exact Nat.min_eq_left (Nat.le_of_lt hsc)
  | succ n ih =>
    intro c hc hle
    rw [diagStacksLoop]
    by_cases h : runtimeStack stackSize c < c
    · rw [dif_pos h]
      have hsc : stackSize < c := by
        by_contra hcon
        have hr : runtimeStack stackSize c = c := Nat.min_eq_right (by omega)
        omega
      exact Nat.min_eq_left (Nat.le_of_lt hsc)
    · rw [dif_neg h]
      have h1 : runtimeStack stackSize c = c :=
        Nat.le_antisymm (Nat.min_le_right _ _) (Nat.not_lt.mp h)
      have h2 : c ≤ stackSize := by
        have h3 : runtimeStack stackSize c ≤ stackSize := Nat.min_le_left _ _
        omega
      apply ih
      rw [h1]
      omega

/-- C1: for every exec, a successful Start appends to the trace exactly
the publication of the start event (TaskStart when execId = taskId,
TaskExecStarted otherwise) immediately followed by the launch of the
per-exec exit observer — both inside the single critical section Start
holds on the state mutex — so the start event is on the stream strictly
before the observer can run; the observer (waitForExit) publishes a
TaskExit event iff the exec is not the init exec; and consequently on
every reachable trace no TaskExit publication precedes a start
publication. -/
theorem c1_start_event_before_exit_observer (he : HcsExec) (env : StartEnv)
    (wenv : WaitForExitEnv) (hr : ExecReachable he) :
    ((he.Start env).2 = none →
      (he.Start env).1.trace = he.trace ++
        [ExecAct.publish (startEventFor he env.pid),
          ExecAct.launchWaitForExit]) ∧
    (pubs (he.waitForExit wenv).trace = pubs he.trace ++
      (if he.tid ≠ he.id then
        [TaskEvent.taskExit he.tid he.id he.pid (uint32ofInt wenv.code)
          wenv.now]
      else [])) ∧
    exitAfterStartAux false he.trace = true := by
  refine ⟨?_, ?_, (execReachable_inv he hr).2.1⟩
  · intro hnone
    by_cases h1 : he.state = ShimExecState.created
    · by_cases h2 : he.id = he.tid ∧ env.containerStartErr = true
      · exfalso
        simp [HcsExec.Start, h1, h2] at hnone
      · by_cases h3 : env.cmdStartErr = true
        · exfalso
          simp [HcsExec.Start, h1, h2, h3] at hnone
        · simp [HcsExec.Start, h1, h2, h3]
    · exfalso
      simp [HcsExec.Start, h1] at hnone
  · rw [waitForExit_char he wenv]
    by_cases h1 : he.processDoneSignaled <;>
      by_cases h2 : he.exitedSignaled <;>
        by_cases h3 : he.tid = he.id <;>
          simp [h1, h2, h3, pubs_append, pubs]

/-- C1 witness: on a fresh additional exec, a successful Start appends
exactly the TaskExecStarted publication followed by the observer
launch. -/
theorem c1_start_event_before_exit_observer_witness :
    (execE1.Start startEnvOk).1.trace = execE1.trace ++
      [ExecAct.publish (startEventFor execE1 42),
        ExecAct.launchWaitForExit] :=
  (c1_start_event_before_exit_observer execE1 startEnvOk wenv0
    (ExecReachable.init "t1" "e1" "bundle" false "sin" "sout" "serr"
      false)).1 (by decide)

/-- C2: exitFromCreatedL is idempotent under the state mutex: on an
already Exited exec it changes nothing; otherwise it, in order, closes
the processDone latch exactly once, sets state = Exited,
exitStatus = uint32(status), exitedAt = now, closes the I/O relay, and
closes the exited latch exactly once — the appended trace records
precisely these effects in that order — and it publishes no event. -/
theorem c2_exitFromCreated_idempotent (he : HcsExec) (s s2 : Int)
    (t t2 : Nat) :
    (he.state = .exited → he.exitFromCreatedL s t = he) ∧
    (he.state ≠ .exited →
      (he.exitFromCreatedL s t).state = .exited ∧
      (he.exitFromCreatedL s t).exitStatus = uint32ofInt s ∧
      (he.exitFromCreatedL s t).exitedAt = t ∧
      (he.exitFromCreatedL s t).ioClosed = true ∧
      (he.exitFromCreatedL s t).processDoneSignaled = true ∧
      (he.exitFromCreatedL s t).exitedSignaled = true ∧
      (he.exitFromCreatedL s t).trace = he.trace ++
        ((if he.processDoneSignaled then [] else [ExecAct.closeProcessDone]) ++
          ([ExecAct.ioClose] ++
            (if he.exitedSignaled then [] else [ExecAct.closeExited])))) ∧
    pubs (he.exitFromCreatedL s t).trace = pubs he.trace ∧
    (he.exitFromCreatedL s t).exitFromCreatedL s2 t2 =
      he.exitFromCreatedL s t := by
  by_cases h : he.state = ShimExecState.exited
  · rw [exitFromCreatedL_exited he s t h]
    exact ⟨fun _ => rfl, fun hc => absurd h hc, rfl,
      exitFromCreatedL_exited he s2 t2 h⟩
  · rw [exitFromCreatedL_char he s t h]
    refine ⟨fun hx => absurd hx h,
      fun _ => ⟨rfl, rfl, rfl, rfl, rfl, rfl, rfl⟩, ?_, ?_⟩
    · by_cases h1 : he.processDoneSignaled <;>
        by_cases h2 : he.exitedSignaled <;>
          simp [h1, h2, pubs_append, pubs]
    · exact exitFromCreatedL_exited _ s2 t2 rfl

/-- C2 witness: on a fresh Created exec the transition sets the exited
fields and closes everything, and a second call is a no-op. -/
theorem c2_exitFromCreated_idempotent_witness :
    (execT1.exitFromCreatedL 3 5).state = .exited ∧
    (execT1.exitFromCreatedL 3 5).exitStatus = uint32ofInt 3 ∧
    pubs (execT1.exitFromCreatedL 3 5).trace = pubs execT1.trace ∧
    (execT1.exitFromCreatedL 3 5).exitFromCreatedL 7 9 =
      execT1.exitFromCreatedL 3 5 := by
  have h := c2_exitFromCreated_idempotent execT1 3 7 5 9
  have h2 := h.2.1 (by decide)
  exact ⟨h2.1, h2.2.1, h.2.2.1, h.2.2.2⟩

/-- C3 counterexample: a reachable Running exec (fresh init exec after a
successful Start) has left Created yet still has exitStatus 255 — the
"only if" direction of the claimed equivalence is false. -/
theorem c3_sentinel_counterexample :
    ExecReachable runningT1 ∧ runningT1.state = .running ∧
    runningT1.state ≠ .created ∧ runningT1.exitStatus = 255 :=
  ⟨ExecReachable.step
      (ExecReachable.init "t1" "t1" "bundle" false "sin" "sout" "serr" false)
      (ExecStep.startStep execT1 startEnvOk),
    by decide, by decide, by decide⟩

/-- C3 (amended): exitStatus is initialized to the sentinel 255 at
construction and overwritten only at entry to Exited, so every reachable
exec that has not entered Exited — whether still Created or already
Running — has exitStatus 255.  Only this direction of the claimed
equivalence holds: a Running exec has left Created but keeps 255. -/
theorem c3_sentinel_amended (he : HcsExec) (hr : ExecReachable he)
    (h : he.state ≠ .exited) : he.exitStatus = 255 :=
  (execReachable_inv he hr).1 h

/-- C3 witness: the freshly created exec carries the sentinel. -/
theorem c3_sentinel_amended_witness : execT1.exitStatus = 255 :=
  c3_sentinel_amended execT1
    (ExecReachable.init "t1" "t1" "bundle" false "sin" "sout" "serr" false)
    (by decide)

/-- C4: Kill dispatches on the exec state: while Created it performs the
exit-from-Created transition with status 1 and returns success — so every
Kill that executes while the exec is Created succeeds and leaves it
Exited; while Running, a delivery that errors propagates, and one that
reports not-delivered surfaces NotFound, without a state transition;
while Exited it deterministically returns NotFound and mutates nothing. -/
theorem c4_kill_dispatch (he : HcsExec) (env : KillEnv) :
    (he.state = .created →
      he.Kill env = (he.exitFromCreatedL 1 env.now, none) ∧
      (he.Kill env).1.state = .exited ∧
      (he.Kill env).1.exitStatus = 1) ∧
    (he.state = .running → env.validateErr = false → env.deliverErr = false →
      env.delivered = false →
      (he.Kill env).2 = some .notFound ∧
      (he.Kill env).1.state = .running ∧
      (he.Kill env).1.exitStatus = he.exitStatus) ∧
    (he.state = .exited → he.Kill env = (he, some .notFound)) := by
  refine ⟨fun h1 => ?_, fun h1 h2 h3 h4 => ?_, fun h1 => ?_⟩
  · have hk : he.Kill env = (he.exitFromCreatedL 1 env.now, none) := by
      simp [HcsExec.Kill, h1]
    have hne : he.state ≠ ShimExecState.exited := by
      rw [h1]
      decide
    refine ⟨hk, ?_, ?_⟩
    · rw [hk]
      rw [exitFromCreatedL_char he 1 env.now hne]
    · rw [hk]
      rw [exitFromCreatedL_char he 1 env.now hne]
      show uint32ofInt 1 = 1
      decide
  · have hk : he.Kill env =
        ({ he with trace := he.trace ++
            [if env.signalsSupported = true ∧ env.validateOptPresent = true
              then ExecAct.processSignal else ExecAct.processKill] },
          some KillError.notFound) := by
      simp [HcsExec.Kill, h1, h2, h3, h4]
    rw [hk]
    exact ⟨rfl, h1, rfl⟩
  · simp [HcsExec.Kill, h1]

/-- C4 witness: Kill on a fresh Created exec succeeds and exits it; Kill
on a Running exec with a not-delivered signal reports NotFound. -/
theorem c4_kill_dispatch_witness :
    (execT1.Kill kenv0).2 = none ∧
    (execT1.Kill kenv0).1.state = .exited ∧
    (runningT1.Kill kenv0).2 = some KillError.notFound := by
  have h := (c4_kill_dispatch execT1 kenv0).1 (by decide)
  have h2 := (c4_kill_dispatch runningT1 kenv0).2.1 (by decide) (by decide)
    (by decide) (by decide)
  exact ⟨by rw [h.1], h.2.1, h2.1⟩

/-- C5 counterexample: Start on a reachable Running exec fails with
InvalidState but leaves the exec Running with the sentinel status 255 —
not Exited with status 1 as the claim states for both failure modes (the
exit-from-Created cleanup is deferred only after the state check). -/
theorem c5_start_failure_counterexample :
    ExecReachable runningT1 ∧
    (runningT1.Start startEnvOk).2 = some StartError.invalidState ∧
    (runningT1.Start startEnvOk).1 = runningT1 ∧
    runningT1.state = .running ∧
    runningT1.exitStatus = 255 :=
  ⟨ExecReachable.step
      (ExecReachable.init "t1" "t1" "bundle" false "sin" "sout" "serr" false)
      (ExecStep.startStep execT1 startEnvOk),
    by decide, by decide, by decide, by decide⟩

/-- C5 (amended): a container or process start failure surfaces the error
and leaves the exec Exited with exit status 1; Start on a non-Created
exec returns the InvalidState error and mutates nothing at all. -/
theorem c5_start_failure_modes (he : HcsExec) (env : StartEnv) :
    (he.state ≠ .created → he.Start env = (he, some .invalidState)) ∧
    (he.state = .created → (he.Start env).2.isSome = true →
      (he.Start env).1.state = .exited ∧
      (he.Start env).1.exitStatus = 1 ∧
      ((he.Start env).2 = some .containerStartFailed ∨
        (he.Start env).2 = some .cmdStartFailed)) := by
  refine ⟨fun h1 => ?_, fun h1 hs => ?_⟩
  · simp [HcsExec.Start, h1]
  · have hne : he.state ≠ ShimExecState.exited := by
      rw [h1]
      decide
    by_cases h2 : he.id = he.tid ∧ env.containerStartErr = true
    · have hk : he.Start env =
          (he.exitFromCreatedL 1 env.now, some .containerStartFailed) := by
        simp [HcsExec.Start, h1, h2]
      rw [hk]
      rw [exitFromCreatedL_char he 1 env.now hne]
      exact ⟨rfl, (by decide : uint32ofInt 1 = 1), Or.inl rfl⟩
    · by_cases h3 : env.cmdStartErr = true
      · have hk : he.Start env =
            (he.exitFromCreatedL 1 env.now, some .cmdStartFailed) := by
          simp [HcsExec.Start, h1, h2, h3]
        rw [hk]
        rw [exitFromCreatedL_char he 1 env.now hne]
        exact ⟨rfl, (by decide : uint32ofInt 1 = 1), Or.inr rfl⟩
      · exfalso
        have hk : (he.Start env).2 = none := by
          simp [HcsExec.Start, h1, h2, h3]
        rw [hk] at hs
        exact Bool.noConfusion hs

/-- C5 witness: a failed process start on a fresh exec leaves Exited(1);
Start on the Running exec only reports InvalidState. -/
theorem c5_start_failure_modes_witness :
    (execE1.Start startEnvCmdFail).1.state = .exited ∧
    (execE1.Start startEnvCmdFail).1.exitStatus = 1 ∧
    runningT1.Start startEnvOk = (runningT1, some StartError.invalidState) := by
  have h := (c5_start_failure_modes execE1 startEnvCmdFail).2 (by decide)
    (by decide)
  exact ⟨h.1, h.2.1,
    (c5_start_failure_modes runningT1 startEnvOk).1 (by decide)⟩

/-- C6 counterexample: ForceExit(5) on a fresh Created exec leaves it
Exited with exitStatus 5, not 1: from Created, ForceExit passes its
status argument to the exit-from-Created transition instead of Kill's
hardcoded 1. -/
theorem c6_forceExit_counterexample :
    (execT1.ForceExit 5 9).state = .exited ∧
    (execT1.ForceExit 5 9).exitStatus = 5 ∧
    (execT1.ForceExit 5 9).exitStatus ≠ 1 := by
  decide

/-- C6 (amended): ForceExit(status) from Created performs the
exit-from-Created transition with the given status (leaving Exited with
exitStatus = uint32(status) — like Kill from Created except that Kill
hardcodes status 1); from Running it only issues a platform Kill against
the process and changes no state fields; from Exited it does nothing. -/
theorem c6_forceExit_dispatch (he : HcsExec) (status : Int) (now : Nat) :
    (he.state = .created →
      he.ForceExit status now = he.exitFromCreatedL status now ∧
      (he.ForceExit status now).state = .exited ∧
      (he.ForceExit status now).exitStatus = uint32ofInt status) ∧
    (he.state = .running →
      he.ForceExit status now =
        { he with trace := he.trace ++ [ExecAct.processKill] }) ∧
    (he.state = .exited → he.ForceExit status now = he) := by
  refine ⟨fun h1 => ?_, fun h1 => ?_, fun h1 => ?_⟩
  · have hk : he.ForceExit status now = he.exitFromCreatedL status now := by
      simp [HcsExec.ForceExit, h1]
    have hne : he.state ≠ ShimExecState.exited := by
      rw [h1]
      decide
    refine ⟨hk, ?_, ?_⟩ <;> rw [hk, exitFromCreatedL_char he status now hne]
  · simp [HcsExec.ForceExit, h1]
  · simp [HcsExec.ForceExit, h1]

/-- C6 witness: ForceExit(1) from Created equals the exit-from-Created
transition; from Running it only records the platform Kill. -/
theorem c6_forceExit_dispatch_witness :
    execT1.ForceExit 1 9 = execT1.exitFromCreatedL 1 9 ∧
    (execT1.ForceExit 1 9).state = .exited ∧
    runningT1.ForceExit 1 9 =
      { runningT1 with trace := runningT1.trace ++ [ExecAct.processKill] } := by
  have h := (c6_forceExit_dispatch execT1 1 9).1 (by decide)
  exact ⟨h.1, h.2.1, (c6_forceExit_dispatch runningT1 1 9).2.1 (by decide)⟩

/-- C7: Wait blocks on the exited latch — while the latch is open the
caller is still waiting (`none`; a caller whose context is cancelled
merely abandons that wait) and once the latch is signaled Wait returns
the Status() snapshot; its return type admits no error, the context
argument is never consulted, and for either value of it the exec is left
exactly as it was. -/
theorem c7_wait_blocks_and_snapshots (he : HcsExec) (c : Bool) :
    (he.Wait c).2 = he ∧
    (he.Wait c).1 = (if he.exitedSignaled then some he.Status else none) ∧
    he.Wait c = he.Wait true :=
  ⟨rfl, rfl, rfl⟩

/-- C8: syscallWatcher runs the wrapped call synchronously on the caller
(the call is invoked and returns on the caller's event list, for every
deadline — the watcher never cancels or aborts it); the watcher
goroutine waits for the earlier of the deadline and the call's
completion: it emits the warning naming the watched function and the
correlation id iff the deadline fires first, and only the quiet
"canceled" log otherwise; and the correlation id of the next invocation
differs from this one's. -/
theorem c8_syscallWatcher_observes (ctr deadline callDur name d2 k2 n2 : Nat) :
    (syscallWatcher ctr deadline callDur name).callerEvents =
      [WatchEv.callInvoked, WatchEv.callReturned,
        WatchEv.finishedLog name (syscallWatcher ctr deadline callDur name).sid] ∧
    WatchEv.callReturned ∈ (syscallWatcher ctr deadline callDur name).callerEvents ∧
    (deadline ≤ callDur →
      (syscallWatcher ctr deadline callDur name).watcherEvents =
        [WatchEv.startedLog name (syscallWatcher ctr deadline callDur name).sid,
          WatchEv.timeoutWarn name
            (syscallWatcher ctr deadline callDur name).sid]) ∧
    (callDur < deadline →
      (syscallWatcher ctr deadline callDur name).watcherEvents =
        [WatchEv.startedLog name (syscallWatcher ctr deadline callDur name).sid,
          WatchEv.canceledLog name
            (syscallWatcher ctr deadline callDur name).sid]) ∧
    (syscallWatcher (syscallWatcher ctr deadline callDur name).nextCtr
        d2 k2 n2).sid ≠
      (syscallWatcher ctr deadline callDur name).sid := by
  refine ⟨rfl, by simp [syscallWatcher], fun h => ?_, fun h => ?_, ?_⟩
  · simp [syscallWatcher, watchFunc, genUUID, h]
  · simp [syscallWatcher, watchFunc, genUUID, Nat.not_le.mpr h]
  · simp [syscallWatcher, genUUID]

/-- C8 witness: with deadline 1 and call duration 5 the watcher emits the
timeout warning carrying the function name and the correlation id. -/
theorem c8_syscallWatcher_observes_witness :
    (syscallWatcher 0 1 5 3).watcherEvents =
      [WatchEv.startedLog 3 0, WatchEv.timeoutWarn 3 0] :=
  (c8_syscallWatcher_observes 0 1 5 3 0 0 0).2.2.1 (by decide)

/-- C9: DiagStacks always succeeds (nil error) and returns the complete
stack dump of all workers: the buffer-doubling loop terminates exactly
when the written dump is strictly below the buffer capacity, and at that
point the whole dump was captured. -/
theorem c9_diagStacks_complete (stackSize : Nat) :
    DiagStacks stackSize = (stackSize, none) := by
  unfold DiagStacks
  rw [diagStacksLoop_eq stackSize (stackSize + 1) 4096 (by omega) (by omega)]

/-- C10: CloseIO succeeds (nil error) for every exec in every state and
for both values of its stdin argument; the argument is ignored, and the
only effect is the relay's idempotent CloseStdin, so repeated calls are
safe and further calls change nothing. -/
theorem c10_closeIO_total (he : HcsExec) (b b2 : Bool) :
    (he.closeIOOp b).2 = none ∧
    (he.closeIOOp b).1 = { he with ioStdinClosed := true } ∧
    he.closeIOOp b = he.closeIOOp b2 ∧
    ((he.closeIOOp b).1.closeIOOp b2).1 = (he.closeIOOp b).1 :=
  ⟨rfl, rfl, rfl, rfl⟩
